import Mathlib

/-!
Verification of the r2-sharding-webdav handler (src/functions/[[path]].js).

The development shallowly embeds the handler: the metadata table (D1 `files`
table) is a list of records, the local object stores are an association list
keyed by (shard id, object key), SQL queries are translated operator by
operator (including `LIKE` wildcard semantics), and the SHA-256 based shard
hash is implemented in full so that routing decisions are computable.
-/

set_option maxRecDepth 100000

namespace R2WD

/-! ## SQL LIKE

Faithful model of the SQL `LIKE` operator used by the PROPFIND and DELETE
queries: `%` matches any (possibly empty) character sequence, `_` matches
exactly one character, every other pattern character matches itself.
Matching is case sensitive, per the generic SQL interface the spec assigns
to the external metadata engine. -/

def likeAux : Nat → List Char → List Char → Bool
  | 0, _, _ => false
  | _ + 1, [], s => s.isEmpty
  | f + 1, p :: ps, s =>
    if p = '%' then
      match s with
      | [] => likeAux f ps []
      | c :: cs => likeAux f ps (c :: cs) || likeAux f ('%' :: ps) cs
    else
      match s with
      | [] => false
      | c :: cs => if p = '_' then likeAux f ps cs else p == c && likeAux f ps cs

/-- The fuel argument only needs to dominate the combined length: every
recursive call shrinks pattern plus string by at least one. -/
def likeMatchL (ps s : List Char) : Bool := likeAux (ps.length + s.length + 1) ps s

/-- String-level `value LIKE pattern`. -/
def sqlLike (s pat : String) : Bool := likeMatchL pat.data s.data

/-! ## SHA-256

Executable SHA-256 over byte lists (bytes are `Nat` values below 256),
mirroring `crypto.subtle.digest("SHA-256", ...)`. -/

def add32 (a b : Nat) : Nat := (a + b) % 4294967296

def rotr32 (n x : Nat) : Nat := ((x >>> n) ||| (x <<< (32 - n))) % 4294967296

def bigSigma0 (x : Nat) : Nat := rotr32 2 x ^^^ rotr32 13 x ^^^ rotr32 22 x

def bigSigma1 (x : Nat) : Nat := rotr32 6 x ^^^ rotr32 11 x ^^^ rotr32 25 x

def smallSigma0 (x : Nat) : Nat := rotr32 7 x ^^^ rotr32 18 x ^^^ (x >>> 3)

def smallSigma1 (x : Nat) : Nat := rotr32 17 x ^^^ rotr32 19 x ^^^ (x >>> 10)

def chFn (x y z : Nat) : Nat := (x &&& y) ^^^ ((x ^^^ 4294967295) &&& z)

def majFn (x y z : Nat) : Nat := (x &&& y) ^^^ (x &&& z) ^^^ (y &&& z)

def sha256K : List Nat :=
  [1116352408, 1899447441, 3049323471, 3921009573, 961987163, 1508970993,
   2453635748, 2870763221, 3624381080, 310598401, 607225278, 1426881987,
   1925078388, 2162078206, 2614888103, 3248222580, 3835390401, 4022224774,
   264347078, 604807628, 770255983, 1249150122, 1555081692, 1996064986,
   2554220882, 2821834349, 2952996808, 3210313671, 3336571891, 3584528711,
   113926993, 338241895, 666307205, 773529912, 1294757372, 1396182291,
   1695183700, 1986661051, 2177026350, 2456956037, 2730485921, 2820302411,
   3259730800, 3345764771, 3516065817, 3600352804, 4094571909, 275423344,
   430227734, 506948616, 659060556, 883997877, 958139571, 1322822218,
   1537002063, 1747873779, 1955562222, 2024104815, 2227730452, 2361852424,
   2428436474, 2756734187, 3204031479, 3329325298]

def sha256H0 : List Nat :=
  [1779033703, 3144134277, 1013904242, 2773480762,
   1359893119, 2600822924, 528734635, 1541459225]

/-- Big-endian byte expansion, fixed width `k` bytes. -/
def toBytesBE : Nat → Nat → List Nat
  | 0, _ => []
  | k + 1, n => toBytesBE k (n / 256) ++ [n % 256]

/-- 32-bit word from 4 big-endian bytes. -/
def word32BE (bs : List Nat) : Nat :=
  bs.foldl (fun a b => a * 256 + b) 0

/-- SHA-256 padding: 128, zeros to 56 mod 64, then the 64-bit bit length. -/
def padMessage (msg : List Nat) : List Nat :=
  let z := (119 - msg.length % 64) % 64
  msg ++ [128] ++ List.replicate z 0 ++ toBytesBE 8 (msg.length * 8)

def chunksAux (k : Nat) : Nat → List Nat → List (List Nat)
  | 0, _ => []
  | f + 1, l => if l.isEmpty then [] else l.take k :: chunksAux k f (l.drop k)

def chunks64 (l : List Nat) : List (List Nat) := chunksAux 64 l.length l

def chunks4 (l : List Nat) : List (List Nat) := chunksAux 4 l.length l

/-- Append the next message-schedule word (computed from the previous 16). -/
def scheduleStep (w : List Nat) : List Nat :=
  let n := w.length
  let g : Nat → Nat := fun k => w.getD (n - k) 0
  w ++ [add32 (add32 (smallSigma1 (g 2)) (g 7)) (add32 (smallSigma0 (g 15)) (g 16))]

/-- Extend the 16 block words to the full 64-entry schedule. -/
def fullSchedule (w : List Nat) : List Nat :=
  (List.range 48).foldl (fun acc _ => scheduleStep acc) w

/-- One round of the SHA-256 compression function on the 8-word state. -/
def compressStep (st : List Nat) (kw : Nat × Nat) : List Nat :=
  match st with
  | [a, b, c, d, e, f, g, h] =>
    let t1 := add32 (add32 h (bigSigma1 e)) (add32 (add32 (chFn e f g) kw.1) kw.2)
    let t2 := add32 (bigSigma0 a) (majFn a b c)
    [add32 t1 t2, a, b, c, add32 d t1, e, f, g]
  | other => other

def processBlock (h8 : List Nat) (block : List Nat) : List Nat :=
  let w := fullSchedule ((chunks4 block).map word32BE)
  let st := (sha256K.zip w).foldl compressStep h8
  (h8.zip st).map (fun p => add32 p.1 p.2)

/-- SHA-256 digest: 32 bytes. -/
def sha256 (msg : List Nat) : List Nat :=
  (((chunks64 (padMessage msg)).foldl processBlock sha256H0).map (toBytesBE 4)).flatten

/-- UTF-8 encoding of one character, as `TextEncoder().encode` produces. -/
def utf8Char (c : Char) : List Nat :=
  let n := c.toNat
  if n < 128 then [n]
  else if n < 2048 then [192 + n / 64, 128 + n % 64]
  else if n < 65536 then [224 + n / 4096, 128 + (n / 64) % 64, 128 + n % 64]
  else [240 + n / 262144, 128 + (n / 4096) % 64, 128 + (n / 64) % 64, 128 + n % 64]

def utf8Bytes (s : String) : List Nat := (s.data.map utf8Char).flatten

/-- First element of `new Uint32Array(hashBuffer)`: the first four digest
bytes read as a little-endian 32-bit unsigned integer (the worker platform
is little-endian). -/
def hashWord32 (key : String) : Nat :=
  let d := sha256 (utf8Bytes key)
  d.getD 0 0 + 256 * d.getD 1 0 + 65536 * d.getD 2 0 + 16777216 * d.getD 3 0

/-! ## Base64 and Basic auth

The auth check compares the Authorization header against
`"Basic " + btoa(user + ":" + pass)`; `btoa` is base64 over the code units
of its argument. -/

def b64Char (n : Nat) : Char :=
  "ABCDEFGHIJKLMNOPQRSTUVWXYZabcdefghijklmnopqrstuvwxyz0123456789+/".data.getD n '='

def btoaGroups : List Nat → List Char
  | [] => []
  | [a] => [b64Char (a / 4), b64Char (a % 4 * 16), '=', '=']
  | [a, b] => [b64Char (a / 4), b64Char (a % 4 * 16 + b / 16), b64Char (b % 16 * 4), '=']
  | a :: b :: c :: rest =>
    b64Char (a / 4) :: b64Char (a % 4 * 16 + b / 16) ::
      b64Char (b % 16 * 4 + c / 64) :: b64Char (c % 64) :: btoaGroups rest

def btoa (s : String) : String := ⟨btoaGroups (s.data.map Char.toNat)⟩

def DEFAULT_USER : String := "admin"

def basicAuth (user pass : String) : String := "Basic " ++ btoa (user ++ ":" ++ pass)

/-! ## Data model

`Shard` mirrors one entry of the R2_SHARDS configuration document,
`FileRecord` one row of the D1 `files` table. The local object stores are
modelled as one association list keyed by (shard id, object key) — every
local shard binding `env[shard.id]` is a separate key space under its id.
The `size` field is `Option Nat`: `none` models the `NaN` that
`parseInt` produces on a header without leading digits. -/

structure Shard where
  id : String
  type : String
  bucketName : String
deriving DecidableEq, Repr

structure FileRecord where
  path : String
  bucket_id : String
  is_dir : Nat
  size : Option Nat
  updated_at : Nat
deriving DecidableEq, Repr

structure StoredObject where
  body : List Nat
  contentType : Option String
deriving DecidableEq, Repr

structure SysState where
  db : List FileRecord
  store : List ((String × String) × StoredObject)
deriving DecidableEq, Repr

/-- Request environment: configuration and ambient effects, loaded once per
request in the source (shard list and effective SYSTEM_PASS from the config
store, `Date.now()`, and the remote-upload outcome oracle standing for the
network). -/
structure Env where
  shards : List Shard
  pass : String
  now : Nat
  remOk : String → String → Bool

/-- One incoming request: `rawPath` is the already percent-decoded
`url.pathname`, `dest` the decoded path component of the Destination header
URL (`none` when the header is absent; URL parsing itself is the platform
collaborator). -/
structure Req where
  method : String
  rawPath : String
  headers : String → Option String
  body : List Nat
  dest : Option String

/-- Responses. `asset` and `adminApi` mark the static-asset and admin-API
passthroughs (outside the deep spec), `remoteGet` the transparent remote
read passthrough, `multistatus` the 207 document built from exactly the
listed records, and `thrown` an uncaught JavaScript exception. -/
inductive Resp where
  | basic (status : Nat) (body : String)
  | obj (status : Nat) (body : List Nat) (contentType : Option String)
  | asset (rawPath : String)
  | adminApi (method : String)
  | remoteGet (shardId : String) (path : String)
  | multistatus (entries : List FileRecord)
  | thrown
deriving DecidableEq, Repr

/-! ## Metadata queries

Each definition translates one SQL statement of the source. -/

/-- SELECT ... FROM files WHERE path = ? , first row. -/
def dbFind (db : List FileRecord) (p : String) : Option FileRecord :=
  db.find? (fun r => r.path == p)

/-- The queryPath of the PROPFIND branch: `path === "/" ? "/%" : path + "/%"`. -/
def propfindPattern (p : String) : String :=
  if p == "/" then "/%" else p ++ "/%"

/-- The prefix below which the PROPFIND query looks for children: "/" for the
root, `p ++ "/"` otherwise, so that `propfindPattern p` is this prefix
followed by one percent wildcard. -/
def childBase (p : String) : String :=
  if p == "/" then "/" else p ++ "/"

/-- The PROPFIND listing query: WHERE path = ? OR (path LIKE qp AND path NOT
LIKE qp + "/%") with qp the propfindPattern. -/
def propfindQuery (db : List FileRecord) (p : String) : List FileRecord :=
  db.filter (fun r =>
    r.path == p ||
      (sqlLike r.path (propfindPattern p) && !sqlLike r.path (propfindPattern p ++ "/%")))

/-- DELETE FROM files WHERE path = ? OR path LIKE ? (? + "/%"): the rows
that survive the cascade delete. -/
def deleteQuery (db : List FileRecord) (p : String) : List FileRecord :=
  db.filter (fun r => !(r.path == p || sqlLike r.path (p ++ "/%")))

/-- INSERT OR REPLACE INTO files (path, bucket_id, is_dir, size, updated_at)
VALUES (?, ?, 0, ?, ?). -/
def upsert (db : List FileRecord) (p bid : String) (size : Option Nat) (now : Nat) :
    List FileRecord :=
  db.filter (fun r => !(r.path == p)) ++ [⟨p, bid, 0, size, now⟩]

/-- UPDATE files SET path = ? WHERE path = ?. With the unique-path invariant
at most one row matches; a unique-key failure on an occupied destination is
outside the model and outside the claims. -/
def movePath (db : List FileRecord) (p q : String) : List FileRecord :=
  db.map (fun r => if r.path == p then ⟨q, r.bucket_id, r.is_dir, r.size, r.updated_at⟩ else r)

/-! ## Object store operations -/

def storeGet (store : List ((String × String) × StoredObject)) (sid p : String) :
    Option StoredObject :=
  (store.find? (fun kv => kv.1 == (sid, p))).map (fun kv => kv.2)

def storePut (store : List ((String × String) × StoredObject)) (sid p : String)
    (o : StoredObject) : List ((String × String) × StoredObject) :=
  store.filter (fun kv => !(kv.1 == (sid, p))) ++ [((sid, p), o)]

def storeDel (store : List ((String × String) × StoredObject)) (sid p : String) :
    List ((String × String) × StoredObject) :=
  store.filter (fun kv => !(kv.1 == (sid, p)))

/-! ## Shard router -/

/-- Hash placement: SHA-256 the path, take the first 32-bit word of the
digest, reduce modulo the shard count, index the ordered shard list. -/
def hashShard (shards : List Shard) (key : String) : Option Shard :=
  if shards.length == 0 then none
  else shards[hashWord32 key % shards.length]?

/-- getShard of the source: metadata lookup first on read intent, falling
back to hash placement; hash directly on write intent. -/
def getShard (db : List FileRecord) (shards : List Shard) (key : String)
    (isWrite : Bool) : Option Shard :=
  let fromDb : Option Shard :=
    if isWrite then none
    else
      match dbFind db key with
      | some r => shards.find? (fun s => s.id == r.bucket_id)
      | none => none
  match fromDb with
  | some s => some s
  | none =>
    if shards.length == 0 then none
    else shards[hashWord32 key % shards.length]?

/-! ## Request processing -/

/-- JavaScript parseInt on a header value: the leading decimal digits, or
`none` for NaN when no leading digit exists. -/
def parseIntJS (s : String) : Option Nat :=
  let ds := s.data.takeWhile (fun c => c.isDigit)
  if ds.isEmpty then none
  else some (ds.foldl (fun a c => a * 10 + (c.toNat - 48)) 0)

/-- Computable model of `String.endsWith` (which itself does not reduce in
the kernel): suffix test on the character lists. -/
def strEndsWith (s t : String) : Bool := t.data.isSuffixOf s.data

/-- Computable model of `String.startsWith`, for the same reason. -/
def strStartsWith (s t : String) : Bool := t.data.isPrefixOf s.data

/-- Trailing-slash normalization: one slash is removed when the path is
longer than one character. -/
def normalizePath (p : String) : String :=
  if p.length > 1 && strEndsWith p "/" then p.dropRight 1 else p

/-- The static-asset passthrough condition, including the carve-out that
keeps PROPFIND on the root inside the WebDAV handler. -/
def assetRouted (path method : String) : Bool :=
  (path == "/" || strStartsWith path "/admin" || path == "/index.html" || path == "/favicon.ico")
    && !(path == "/" && method == "PROPFIND")

def propfindStep (db : List FileRecord) (path : String) : Resp :=
  let res := propfindQuery db path
  if res.isEmpty then .basic 404 "Not Found" else .multistatus res

def getStep (e : Env) (st : SysState) (path : String) : Resp :=
  match getShard st.db e.shards path false with
  | none => .basic 404 "File Not Found"
  | some s =>
    if s.type == "local" then
      match storeGet st.store s.id path with
      | none => .basic 404 "Object Not Found in R2"
      | some o => .obj 200 o.body o.contentType
    else .remoteGet s.id path

/-- PUT: store the object at the resolved shard, then upsert the metadata
row. The `none` shard case would be a TypeError in the source; it is
unreachable behind the empty-shard-list guard. -/
def putStep (e : Env) (st : SysState) (path : String) (body : List Nat)
    (ct : Option String) (cl : Option String) : Resp × SysState :=
  match getShard st.db e.shards path true with
  | none => (.thrown, st)
  | some s =>
    let size := parseIntJS (cl.getD "0")
    if s.type == "local" then
      (.basic 201 "", ⟨upsert st.db path s.id size e.now, storePut st.store s.id path ⟨body, ct⟩⟩)
    else if e.remOk s.id path then
      (.basic 201 "", ⟨upsert st.db path s.id size e.now, st.store⟩)
    else (.basic 502 "Remote Upload Failed", st)

def mkcolStep (e : Env) (st : SysState) (path : String) : Resp × SysState :=
  match dbFind st.db path with
  | some _ => (.basic 405 "Already Exists", st)
  | none => (.basic 201 "", ⟨st.db ++ [⟨path, "NONE", 1, some 0, e.now⟩], st.store⟩)

/-- DELETE: remove the object at the read-resolved shard when local (a
remote delete is a passthrough with no modelled local effect), then cascade
delete the metadata rows; 204 regardless. -/
def deleteStep (e : Env) (st : SysState) (path : String) : Resp × SysState :=
  let store' :=
    match getShard st.db e.shards path false with
    | some s => if s.type == "local" then storeDel st.store s.id path else st.store
    | none => st.store
  (.basic 204 "", ⟨deleteQuery st.db path, store'⟩)

def moveStep (st : SysState) (path : String) (dest : Option String) : Resp × SysState :=
  match dest with
  | none => (.basic 400 "Missing Destination", st)
  | some q => (.basic 201 "", ⟨movePath st.db path q, st.store⟩)

/-- The request handler of src/functions/[[path]].js: normalize, asset
passthrough, admin API, Basic auth, not-configured guard, then the method
dispatch. -/
def onRequest (e : Env) (st : SysState) (req : Req) : Resp × SysState :=
  let path := normalizePath req.rawPath
  if assetRouted path req.method then (.asset req.rawPath, st)
  else if path == "/api/admin/config" then (.adminApi req.method, st)
  else if !(req.headers "Authorization" == some (basicAuth DEFAULT_USER e.pass)) then
    (.basic 401 "Unauthorized", st)
  else if e.shards.length == 0 then
    (.basic 503 "System Not Configured. Please visit /admin/index.html", st)
  else if req.method == "OPTIONS" then (.basic 200 "", st)
  else if req.method == "HEAD" then (.basic 200 "", st)
  else if req.method == "PROPFIND" then (propfindStep st.db path, st)
  else if req.method == "GET" then (getStep e st path, st)
  else if req.method == "PUT" then
    putStep e st path req.body (req.headers "Content-Type") (req.headers "Content-Length")
  else if req.method == "MKCOL" then mkcolStep e st path
  else if req.method == "DELETE" then deleteStep e st path
  else if req.method == "MOVE" then moveStep st path req.dest
  else (.basic 405 "Method Not Allowed", st)

/-! ## LOCK stub of the historical handler revision

The current handler (src/functions/[[path]].js) has no LOCK branch; the
lock-granting stub exists only in the historical revision
(src/unnamed/part_000, LOCK branch). It is modelled here as a standalone
function of the Timeout header and of the `crypto.randomUUID()` value drawn
for the call. -/

structure LockResp where
  status : Nat
  body : String
  lockTokenHeader : String
deriving DecidableEq, Repr

/-- The XML template of the historical LOCK response with the timeout and
token interpolated, whitespace as in the source template literal. -/
def lockXmlBody (timeout lockToken : String) : String :=
  "<?xml version=\"1.0\" encoding=\"utf-8\"?>\n            <D:prop xmlns:D=\"DAV:\">\n                <D:lockdiscovery>\n                    <D:activelock>\n                        <D:locktype><D:write/></D:locktype>\n                        <D:lockscope><D:exclusive/></D:lockscope>\n                        <D:depth>Infinity</D:depth>\n                        <D:owner><D:href>"
    ++ DEFAULT_USER ++
    "</D:href></D:owner>\n                        <D:timeout>"
    ++ timeout ++
    "</D:timeout>\n                        <D:locktoken><D:href>"
    ++ lockToken ++
    "</D:href></D:locktoken>\n                    </D:activelock>\n                </D:lockdiscovery>\n            </D:prop>"

def lockHandler (timeoutHdr : Option String) (uuid : String) : LockResp :=
  let timeout := timeoutHdr.getD "Second-3600"
  let lockToken := "opaquelocktoken:" ++ uuid
  ⟨200, lockXmlBody timeout lockToken, "<" ++ lockToken ++ ">"⟩

/-! ## Concrete fixtures -/

def shardA : Shard := ⟨"A", "local", "bucket-a"⟩

def shardB : Shard := ⟨"B", "local", "bucket-b"⟩

def envA : Env := ⟨[shardA], "admin123", 1000, fun _ _ => true⟩

def authHeaders : String → Option String :=
  fun h => if h == "Authorization" then some (basicAuth DEFAULT_USER "admin123") else none

/-! ## Sanity checks

A known-answer vector for the digest implementation, LIKE matcher checks,
and a base64 check. -/

example : sha256 (utf8Bytes "abc") =
    [186, 120, 22, 191, 143, 1, 207, 234,
     65, 65, 64, 222, 93, 174, 34, 35,
     176, 3, 97, 163, 150, 23, 122, 156,
     180, 16, 255, 97, 242, 0, 21, 173] := by decide

example : sqlLike "/a/b" "/a/%" = true := by decide

example : sqlLike "/axb/c" "/a_b/%" = true := by decide

example : (sqlLike "/a/b/c" "/a/%" && !sqlLike "/a/b/c" "/a/%/%") = false := by decide

example : btoa "admin:admin123" = "YWRtaW46YWRtaW4xMjM=" := by decide

/-! ## Claim C4 -/

/-- C4: on read intent, an existing metadata record whose recorded shard id
is still present in the configuration pins the routing decision — getShard
returns exactly the shard the lookup finds, with no reference to the hash;
the hash placement is consulted exactly when the lookup or the shard-id
search fails. -/
theorem c4_read_resolve_pinned (db : List FileRecord) (shards : List Shard)
    (key : String) :
    (∀ r s, dbFind db key = some r →
        shards.find? (fun x => x.id == r.bucket_id) = some s →
        getShard db shards key false = some s)
    ∧ (∀ r, dbFind db key = some r →
        shards.find? (fun x => x.id == r.bucket_id) = none →
        getShard db shards key false = hashShard shards key)
    ∧ (dbFind db key = none →
        getShard db shards key false = hashShard shards key) := by
  refine ⟨?_, ?_, ?_⟩
  · intro r s hr hs
    simp [getShard, hr, hs]
  · intro r hr hs
    simp [getShard, hashShard, hr, hs]
  · intro hr
    simp [getShard, hashShard, hr]

/-- Concrete instantiation of c4_read_resolve_pinned: a record pinning
"/p.txt" to shard B overrides the hash choice (which is shard A for this
path under the two-shard configuration). -/
theorem c4_read_resolve_pinned_witness :
    dbFind [⟨"/p.txt", "B", 0, some 3, 7⟩] "/p.txt" = some ⟨"/p.txt", "B", 0, some 3, 7⟩
    ∧ [shardA, shardB].find? (fun x => x.id == "B") = some shardB
    ∧ hashShard [shardA, shardB] "/p.txt" = some shardA
    ∧ getShard [⟨"/p.txt", "B", 0, some 3, 7⟩] [shardA, shardB] "/p.txt" false = some shardB :=
  ⟨by decide, by decide, by decide,
    (c4_read_resolve_pinned [⟨"/p.txt", "B", 0, some 3, 7⟩] [shardA, shardB] "/p.txt").1
      ⟨"/p.txt", "B", 0, some 3, 7⟩ shardB (by decide) (by decide)⟩

/-! ## Claim C5 -/

/-- C5: with no metadata record for the path, getShard is the pure hash
placement: a function of the path and the ordered shard list alone
(identical across intents and metadata states without a record), equal to
indexing the shard list at the first SHA-256 digest word of the path
reduced modulo the shard count, and `none` exactly when the shard list is
empty. -/
theorem c5_hash_routing (db : List FileRecord) (shards : List Shard)
    (key : String) (w : Bool) (hnone : dbFind db key = none) :
    getShard db shards key w = hashShard shards key
    ∧ (shards ≠ [] →
        getShard db shards key w = shards[hashWord32 key % shards.length]?)
    ∧ (getShard db shards key w = none ↔ shards = [])
    ∧ (∀ (db₂ : List FileRecord) (w₂ : Bool), dbFind db₂ key = none →
        getShard db₂ shards key w₂ = getShard db shards key w) := by
  have hmain : getShard db shards key w = hashShard shards key := by
    cases w <;> simp [getShard, hashShard, hnone]
  have hhash : hashShard shards key = none ↔ shards = [] := by
    constructor
    · intro h
      by_contra hne
      have hlen : 0 < shards.length := List.length_pos.mpr hne
      have hne0 : shards.length ≠ 0 := Nat.pos_iff_ne_zero.mp hlen
      have hlt : hashWord32 key % shards.length < shards.length := Nat.mod_lt _ hlen
      rw [hashShard] at h
      simp [hne0, List.getElem?_eq_getElem hlt] at h
    · intro h
      subst h
      simp [hashShard]
  refine ⟨hmain, ?_, ?_, ?_⟩
  · intro hne
    have hne0 : shards.length ≠ 0 :=
      Nat.pos_iff_ne_zero.mp (List.length_pos.mpr hne)
    rw [hmain]
    simp [hashShard, hne0]
  · rw [hmain]; exact hhash
  · intro db₂ w₂ h₂
    have : getShard db₂ shards key w₂ = hashShard shards key := by
      cases w₂ <;> simp [getShard, hashShard, h₂]
    rw [this, hmain]

/-- Concrete instantiation of c5_hash_routing: an empty metadata table
routes "/x" by hash; under the two-shard configuration the first digest
word of "/x" is odd, selecting shard B. -/
theorem c5_hash_routing_witness :
    dbFind [] "/x" = none
    ∧ getShard [] [shardA, shardB] "/x" false = hashShard [shardA, shardB] "/x"
    ∧ hashShard [shardA, shardB] "/x" = some shardB :=
  ⟨by decide, (c5_hash_routing [] [shardA, shardB] "/x" false (by decide)).1, by decide⟩

/-! ## LIKE matcher lemmas -/

theorem likeAux_succ_nil (f : Nat) (s : List Char) :
    likeAux (f + 1) [] s = s.isEmpty := rfl

theorem likeAux_succ_pct_nil (f : Nat) (ps : List Char) :
    likeAux (f + 1) ('%' :: ps) [] = likeAux f ps [] := rfl

theorem likeAux_succ_pct_cons (f : Nat) (ps : List Char) (c : Char) (cs : List Char) :
    likeAux (f + 1) ('%' :: ps) (c :: cs) =
      (likeAux f ps (c :: cs) || likeAux f ('%' :: ps) cs) := rfl

theorem likeAux_succ_usc_cons (f : Nat) (ps : List Char) (c : Char) (cs : List Char) :
    likeAux (f + 1) ('_' :: ps) (c :: cs) = likeAux f ps cs := rfl

theorem likeAux_succ_cons_unfold (f : Nat) (p : Char) (ps s : List Char) :
    likeAux (f + 1) (p :: ps) s =
      if p = '%' then
        match s with
        | [] => likeAux f ps []
        | c :: cs => likeAux f ps (c :: cs) || likeAux f ('%' :: ps) cs
      else
        match s with
        | [] => false
        | c :: cs => if p = '_' then likeAux f ps cs else p == c && likeAux f ps cs := rfl

theorem likeAux_succ_lit_nil (f : Nat) (p : Char) (ps : List Char) (hp : p ≠ '%') :
    likeAux (f + 1) (p :: ps) [] = false := by
  rw [likeAux_succ_cons_unfold, if_neg hp]

theorem likeAux_succ_lit_cons (f : Nat) (p : Char) (ps : List Char) (c : Char)
    (cs : List Char) (hp : p ≠ '%') (hu : p ≠ '_') :
    likeAux (f + 1) (p :: ps) (c :: cs) = (p == c && likeAux f ps cs) := by
  rw [likeAux_succ_cons_unfold, if_neg hp]
  show (if p = '_' then likeAux f ps cs else p == c && likeAux f ps cs) = _
  rw [if_neg hu]

theorem likeAux_mono : ∀ (f g : Nat) (ps s : List Char),
    ps.length + s.length < f → ps.length + s.length < g →
    likeAux f ps s = likeAux g ps s := by
  intro f
  induction f with
  | zero => intro g ps s hf; exact absurd hf (by omega)
  | succ f ih =>
    intro g ps s hf hg
    cases g with
    | zero => exact absurd hg (by omega)
    | succ g =>
      cases ps with
      | nil => rw [likeAux_succ_nil, likeAux_succ_nil]
      | cons p ps =>
        by_cases hp : p = '%'
        · subst hp
          cases s with
          | nil =>
            rw [likeAux_succ_pct_nil, likeAux_succ_pct_nil]
            exact ih g ps [] (by simp at hf ⊢; omega) (by simp at hg ⊢; omega)
          | cons c cs =>
            rw [likeAux_succ_pct_cons, likeAux_succ_pct_cons]
            rw [ih g ps (c :: cs) (by simp at hf ⊢; omega) (by simp at hg ⊢; omega),
              ih g ('%' :: ps) cs (by simp at hf ⊢; omega) (by simp at hg ⊢; omega)]
        · cases s with
          | nil => rw [likeAux_succ_lit_nil _ _ _ hp, likeAux_succ_lit_nil _ _ _ hp]
          | cons c cs =>
            by_cases hu : p = '_'
            · subst hu
              rw [likeAux_succ_usc_cons, likeAux_succ_usc_cons]
              exact ih g ps cs (by simp at hf ⊢; omega) (by simp at hg ⊢; omega)
            · rw [likeAux_succ_lit_cons _ _ _ _ _ hp hu,
                likeAux_succ_lit_cons _ _ _ _ _ hp hu]
              rw [ih g ps cs (by simp at hf ⊢; omega) (by simp at hg ⊢; omega)]

theorem likeAux_eq (f : Nat) (ps s : List Char) (h : ps.length + s.length < f) :
    likeAux f ps s = likeMatchL ps s :=
  likeAux_mono f (ps.length + s.length + 1) ps s h (by omega)

theorem likeL_nil (s : List Char) : likeMatchL [] s = s.isEmpty := by
  cases s <;> rfl

theorem likeL_pct_nil (ps : List Char) :
    likeMatchL ('%' :: ps) [] = likeMatchL ps [] := by
  rw [likeMatchL, likeAux_succ_pct_nil]
  exact likeAux_eq _ _ _ (by simp)

theorem likeL_lit_nil (p : Char) (ps : List Char) (hp : p ≠ '%') :
    likeMatchL (p :: ps) [] = false := by
  rw [likeMatchL, likeAux_succ_lit_nil _ _ _ hp]

theorem likeL_pct_cons (ps : List Char) (c : Char) (cs : List Char) :
    likeMatchL ('%' :: ps) (c :: cs) =
      (likeMatchL ps (c :: cs) || likeMatchL ('%' :: ps) cs) := by
  rw [likeMatchL, likeAux_succ_pct_cons]
  rw [likeAux_eq _ _ _ (by simp only [List.length_cons]; omega),
    likeAux_eq _ _ _ (by simp only [List.length_cons]; omega)]

theorem likeL_usc_cons (ps : List Char) (c : Char) (cs : List Char) :
    likeMatchL ('_' :: ps) (c :: cs) = likeMatchL ps cs := by
  rw [likeMatchL, likeAux_succ_usc_cons]
  exact likeAux_eq _ _ _ (by simp; omega)

theorem likeL_lit_cons (p : Char) (ps : List Char) (c : Char) (cs : List Char)
    (hp : p ≠ '%') (hu : p ≠ '_') :
    likeMatchL (p :: ps) (c :: cs) = (p == c && likeMatchL ps cs) := by
  rw [likeMatchL, likeAux_succ_lit_cons _ _ _ _ _ hp hu]
  rw [likeAux_eq _ _ _ (by simp; omega)]

theorem likeL_self_append (l : List Char) (s : List Char) :
    likeMatchL (l ++ ['%']) (l ++ s) = true := by
  induction l generalizing s with
  | nil =>
    simp only [List.nil_append]
    induction s with
    | nil => rfl
    | cons c cs ihs =>
      rw [likeL_pct_cons, likeL_nil]
      simp [ihs]
  | cons a l ih =>
    by_cases ha : a = '%'
    · subst ha
      rw [List.cons_append, List.cons_append, likeL_pct_cons, Bool.or_eq_true]
      refine Or.inr ?_
      cases hls : l ++ s with
      | nil =>
        obtain ⟨hl, hs⟩ := List.append_eq_nil.mp hls
        subst hl
        rfl
      | cons d ds =>
        rw [likeL_pct_cons, Bool.or_eq_true]
        refine Or.inl ?_
        rw [← hls]
        exact ih s
    · by_cases hu : a = '_'
      · subst hu
        rw [List.cons_append, List.cons_append, likeL_usc_cons]
        exact ih s
      · rw [List.cons_append, List.cons_append, likeL_lit_cons _ _ _ _ ha hu]
        simp [ih s]

theorem likeL_pct_univ (s : List Char) : likeMatchL ['%'] s = true :=
  likeL_self_append [] s

theorem likeL_lit_pct : ∀ (l s : List Char), '%' ∉ l → '_' ∉ l →
    (likeMatchL (l ++ ['%']) s = true ↔ ∃ t, s = l ++ t) := by
  intro l
  induction l with
  | nil =>
    intro s _ _
    simp only [List.nil_append]
    constructor
    · intro _; exact ⟨s, rfl⟩
    · intro _; exact likeL_pct_univ s
  | cons a l ih =>
    intro s h1 h2
    have ha : a ≠ '%' := fun h => h1 (h ▸ List.mem_cons_self a l)
    have hu : a ≠ '_' := fun h => h2 (h ▸ List.mem_cons_self a l)
    have h1' : '%' ∉ l := fun h => h1 (List.mem_cons_of_mem _ h)
    have h2' : '_' ∉ l := fun h => h2 (List.mem_cons_of_mem _ h)
    cases s with
    | nil =>
      rw [List.cons_append, likeL_lit_nil _ _ ha]
      simp
    | cons c cs =>
      rw [List.cons_append, likeL_lit_cons _ _ _ _ ha hu, Bool.and_eq_true,
        beq_iff_eq, ih cs h1' h2']
      constructor
      · rintro ⟨rfl, t, rfl⟩
        exact ⟨t, by rw [List.cons_append]⟩
      · rintro ⟨t, ht⟩
        rw [List.cons_append] at ht
        injection ht with h3 h4
        exact ⟨h3.symm, t, h4⟩

theorem likeL_pct_slash (s : List Char) :
    likeMatchL ['%', '/', '%'] s = true ↔ '/' ∈ s := by
  induction s with
  | nil =>
    rw [likeL_pct_nil, likeL_lit_nil _ _ (by decide)]
    simp
  | cons c cs ih =>
    rw [likeL_pct_cons, likeL_lit_cons _ _ _ _ (by decide) (by decide),
      Bool.or_eq_true, Bool.and_eq_true, beq_iff_eq, ih]
    simp [likeL_pct_univ, List.mem_cons, eq_comm]

theorem likeL_lit_pct_slash : ∀ (l s : List Char), '%' ∉ l → '_' ∉ l →
    (likeMatchL (l ++ ['%', '/', '%']) s = true ↔ ∃ t, s = l ++ t ∧ '/' ∈ t) := by
  intro l
  induction l with
  | nil =>
    intro s _ _
    simpa using likeL_pct_slash s
  | cons a l ih =>
    intro s h1 h2
    have ha : a ≠ '%' := fun h => h1 (h ▸ List.mem_cons_self a l)
    have hu : a ≠ '_' := fun h => h2 (h ▸ List.mem_cons_self a l)
    have h1' : '%' ∉ l := fun h => h1 (List.mem_cons_of_mem _ h)
    have h2' : '_' ∉ l := fun h => h2 (List.mem_cons_of_mem _ h)
    cases s with
    | nil =>
      rw [List.cons_append, likeL_lit_nil _ _ ha]
      simp
    | cons c cs =>
      rw [List.cons_append, likeL_lit_cons _ _ _ _ ha hu, Bool.and_eq_true,
        beq_iff_eq, ih cs h1' h2']
      constructor
      · rintro ⟨rfl, t, rfl, hm⟩
        exact ⟨t, by rw [List.cons_append], hm⟩
      · rintro ⟨t, ht, hm⟩
        rw [List.cons_append] at ht
        injection ht with h3 h4
        exact ⟨h3.symm, t, h4, hm⟩

/-! ## String-to-list bridges -/

theorem data_append_slash (P : String) : (P ++ "/").data = P.data ++ ['/'] := by
  rw [String.data_append]

theorem data_append_slash_seg (P t : String) :
    (P ++ "/" ++ t).data = (P.data ++ ['/']) ++ t.data := by
  rw [String.data_append, String.data_append]

theorem sqlLike_slash_pct (s P : String) :
    sqlLike s (P ++ "/%") = likeMatchL ((P.data ++ ['/']) ++ ['%']) s.data := by
  rw [sqlLike, String.data_append, List.append_assoc]
  rfl

theorem propfindPattern_data (P : String) :
    (propfindPattern P).data = (childBase P).data ++ ['%'] := by
  rw [propfindPattern, childBase]
  by_cases h : P = "/"
  · simp [h]
  · have hb : (P == "/") = false := beq_eq_false_iff_ne.mpr h
    rw [hb]
    simp only [Bool.false_eq_true, if_false, String.data_append]
    rw [List.append_assoc]
    rfl

theorem propfindPattern_slash_data (P : String) :
    (propfindPattern P ++ "/%").data = (childBase P).data ++ ['%', '/', '%'] := by
  rw [String.data_append, propfindPattern_data, List.append_assoc]
  rfl

/-! ## Claim C7 -/

/-- C7: the DELETE cascade removes the exact record and every record whose
path extends `P ++ "/"`: afterwards no surviving record has path P or a path
of the form `P ++ "/" ++ t`, and lookups of P or of any such extension
return none. -/
theorem c7_delete_cascade (e : Env) (st : SysState) (P : String) :
    (∀ r, r ∈ (deleteStep e st P).2.db →
      r.path ≠ P ∧ ∀ t : String, r.path ≠ P ++ "/" ++ t)
    ∧ dbFind (deleteStep e st P).2.db P = none
    ∧ (∀ Q t : String, Q = P ++ "/" ++ t →
        dbFind (deleteStep e st P).2.db Q = none) := by
  have hmem : ∀ r, r ∈ (deleteStep e st P).2.db →
      r.path ≠ P ∧ ∀ t : String, r.path ≠ P ++ "/" ++ t := by
    intro r hr
    have hr' : r ∈ st.db.filter
        (fun x => !(x.path == P || sqlLike x.path (P ++ "/%"))) := hr
    rw [List.mem_filter] at hr'
    obtain ⟨-, hcond⟩ := hr'
    rw [Bool.not_eq_true', Bool.or_eq_false_iff, beq_eq_false_iff_ne] at hcond
    obtain ⟨h1, h2⟩ := hcond
    refine ⟨h1, ?_⟩
    intro t hEq
    have hlike : sqlLike r.path (P ++ "/%") = true := by
      rw [sqlLike_slash_pct, hEq, data_append_slash_seg]
      exact likeL_self_append (P.data ++ ['/']) t.data
    rw [hlike] at h2
    cases h2
  refine ⟨hmem, ?_, ?_⟩
  · rw [dbFind, List.find?_eq_none]
    intro x hx
    rw [beq_iff_eq]
    exact (hmem x hx).1
  · intro Q t hQ
    rw [dbFind, List.find?_eq_none]
    intro x hx
    rw [beq_iff_eq, hQ]
    exact (hmem x hx).2 t

/-- Concrete instantiation of c7_delete_cascade: deleting "/a" removes the
directory record and its descendant "/a/b" while keeping the sibling "/ab",
and lookups of "/a" and "/a/b" afterwards return none. -/
theorem c7_delete_cascade_witness :
    (deleteStep envA
        ⟨[⟨"/a", "NONE", 1, some 0, 5⟩, ⟨"/a/b", "A", 0, some 2, 6⟩,
          ⟨"/ab", "A", 0, some 1, 7⟩], []⟩ "/a").2.db = [⟨"/ab", "A", 0, some 1, 7⟩]
    ∧ dbFind (deleteStep envA
        ⟨[⟨"/a", "NONE", 1, some 0, 5⟩, ⟨"/a/b", "A", 0, some 2, 6⟩,
          ⟨"/ab", "A", 0, some 1, 7⟩], []⟩ "/a").2.db "/a" = none
    ∧ dbFind (deleteStep envA
        ⟨[⟨"/a", "NONE", 1, some 0, 5⟩, ⟨"/a/b", "A", 0, some 2, 6⟩,
          ⟨"/ab", "A", 0, some 1, 7⟩], []⟩ "/a").2.db "/a/b" = none :=
  ⟨by decide,
    (c7_delete_cascade envA
      ⟨[⟨"/a", "NONE", 1, some 0, 5⟩, ⟨"/a/b", "A", 0, some 2, 6⟩,
        ⟨"/ab", "A", 0, some 1, 7⟩], []⟩ "/a").2.1,
    (c7_delete_cascade envA
      ⟨[⟨"/a", "NONE", 1, some 0, 5⟩, ⟨"/a/b", "A", 0, some 2, 6⟩,
        ⟨"/ab", "A", 0, some 1, 7⟩], []⟩ "/a").2.2 "/a/b" "b" (by decide)⟩

/-! ## Claim C6 -/

/-- C6 counterexample: SQL LIKE treats the underscore in P = "/a_b" as a
one-character wildcard, so the listing query returns the record "/axb/c"
even though its path neither equals P nor starts with P ++ "/". -/
theorem c6_wildcard_counterexample :
    propfindQuery [⟨"/axb/c", "A", 0, some 1, 1⟩] "/a_b" =
      [⟨"/axb/c", "A", 0, some 1, 1⟩]
    ∧ ("/axb/c" : String) ≠ "/a_b"
    ∧ strStartsWith "/axb/c" "/a_b/" = false := by decide

/-- C6 amended: for a path P free of the SQL LIKE wildcard characters
percent and underscore, the listing query returns exactly the records whose
path equals P or extends the child base (P ++ "/", or "/" at the root) by
one slash-free segment — in particular never a deeper descendant. -/
theorem c6_listing_query (P : String) (db : List FileRecord) (r : FileRecord)
    (h1 : '%' ∉ P.data) (h2 : '_' ∉ P.data) :
    r ∈ propfindQuery db P ↔
      r ∈ db ∧ (r.path = P ∨
        ∃ seg : String, '/' ∉ seg.data ∧ r.path = childBase P ++ seg) := by
  have hbase : ∀ c : Char, c ≠ '/' → c ∉ P.data → c ∉ (childBase P).data := by
    intro c hc hP hm
    rw [childBase] at hm
    by_cases h : P = "/"
    · rw [if_pos (beq_iff_eq.mpr h)] at hm
      simp at hm
      exact hc hm
    · rw [beq_eq_false_iff_ne.mpr h] at hm
      simp only [Bool.false_eq_true, if_false, String.data_append] at hm
      rcases List.mem_append.mp hm with h' | h'
      · exact hP h'
      · simp at h'
        exact hc h'
  have hl1 : '%' ∉ (childBase P).data := hbase '%' (by decide) h1
  have hl2 : '_' ∉ (childBase P).data := hbase '_' (by decide) h2
  have hiff : ∀ b : Bool, (b = false) ↔ ¬(b = true) := by
    intro b; cases b <;> simp
  rw [propfindQuery, List.mem_filter]
  refine and_congr_right fun _ => ?_
  rw [Bool.or_eq_true, beq_iff_eq, Bool.and_eq_true, Bool.not_eq_true']
  rw [show sqlLike r.path (propfindPattern P) =
      likeMatchL ((childBase P).data ++ ['%']) r.path.data from by
    rw [sqlLike, propfindPattern_data]]
  rw [show sqlLike r.path (propfindPattern P ++ "/%") =
      likeMatchL ((childBase P).data ++ ['%', '/', '%']) r.path.data from by
    rw [sqlLike, propfindPattern_slash_data]]
  rw [likeL_lit_pct _ _ hl1 hl2, hiff, likeL_lit_pct_slash _ _ hl1 hl2]
  constructor
  · rintro (hEq | ⟨⟨t, ht⟩, hnot⟩)
    · exact Or.inl hEq
    · refine Or.inr ⟨⟨t⟩, fun hm => hnot ⟨t, ht, hm⟩, ?_⟩
      apply String.ext
      rw [String.data_append, ht]
  · rintro (hEq | ⟨seg, hm, hEq⟩)
    · exact Or.inl hEq
    · refine Or.inr ⟨⟨seg.data, by rw [hEq, String.data_append]⟩, ?_⟩
      rintro ⟨t', ht', hmem'⟩
      have hdata : r.path.data = (childBase P).data ++ seg.data := by
        rw [hEq, String.data_append]
      have hseg : seg.data = t' :=
        List.append_cancel_left (by rw [← hdata, ht'])
      exact hm (hseg ▸ hmem')

/-- Concrete instantiation of c6_listing_query: "/a" is wildcard-free and
the record "/a/b" is listed as the child with segment "b". -/
theorem c6_listing_query_witness :
    ('%' ∉ ("/a" : String).data) ∧ ('_' ∉ ("/a" : String).data) ∧
      (⟨"/a/b", "A", 0, some 2, 6⟩ : FileRecord) ∈
        propfindQuery
          [⟨"/a", "NONE", 1, some 0, 5⟩, ⟨"/a/b", "A", 0, some 2, 6⟩,
            ⟨"/a/b/c", "A", 0, some 3, 7⟩, ⟨"/ab", "A", 0, some 1, 8⟩] "/a" :=
  ⟨by decide, by decide,
    (c6_listing_query "/a"
      [⟨"/a", "NONE", 1, some 0, 5⟩, ⟨"/a/b", "A", 0, some 2, 6⟩,
        ⟨"/a/b/c", "A", 0, some 3, 7⟩, ⟨"/ab", "A", 0, some 1, 8⟩]
      ⟨"/a/b", "A", 0, some 2, 6⟩ (by decide) (by decide)).mpr
      ⟨by decide, Or.inr ⟨"b", by decide, by decide⟩⟩⟩

/-! ## find? helpers -/

theorem find?_append_none {α} (p : α → Bool) (l₁ l₂ : List α)
    (h : l₁.find? p = none) : (l₁ ++ l₂).find? p = l₂.find? p := by
  induction l₁ with
  | nil => simp
  | cons a l ih =>
    cases hpa : p a with
    | true =>
      rw [List.find?_cons_of_pos _ hpa] at h
      cases h
    | false =>
      rw [List.find?_cons_of_neg _ (by simp [hpa])] at h
      rw [List.cons_append, List.find?_cons_of_neg _ (by simp [hpa])]
      exact ih h

theorem find?_filtered_append {α} (q : α → Bool) (l : List α) (x : α)
    (hq : q x = true) :
    ((l.filter fun a => !q a) ++ [x]).find? q = some x := by
  have hnone : (l.filter fun a => !q a).find? q = none := by
    rw [List.find?_eq_none]
    intro a ha
    rw [List.mem_filter] at ha
    have := ha.2
    rw [Bool.not_eq_true'] at this
    simp [this]
  rw [find?_append_none _ _ _ hnone]
  simp [List.find?, hq]

/-! ## Claim C8 -/

/-- C8: a first MKCOL on a path with no record responds 201 and appends
exactly one directory record (sentinel bucket id "NONE", is_dir 1, size 0);
a second MKCOL on the same path responds 405 Already Exists and leaves the
state unchanged, so exactly one record for the path persists. -/
theorem c8_mkcol_twice (e : Env) (st : SysState) (P : String)
    (h : dbFind st.db P = none) :
    (mkcolStep e st P).1 = .basic 201 ""
    ∧ (mkcolStep e st P).2.db = st.db ++ [⟨P, "NONE", 1, some 0, e.now⟩]
    ∧ (mkcolStep e st P).2.store = st.store
    ∧ (mkcolStep e (mkcolStep e st P).2 P).1 = .basic 405 "Already Exists"
    ∧ (mkcolStep e (mkcolStep e st P).2 P).2 = (mkcolStep e st P).2
    ∧ ((mkcolStep e st P).2.db.filter fun r => r.path == P).length = 1 := by
  have hx : dbFind (st.db ++ [(⟨P, "NONE", 1, some 0, e.now⟩ : FileRecord)]) P =
      some ⟨P, "NONE", 1, some 0, e.now⟩ := by
    rw [dbFind] at h ⊢
    rw [find?_append_none _ _ _ h]
    simp [List.find?]
  have hnil : (st.db.filter fun r => r.path == P) = [] := by
    rw [List.filter_eq_nil_iff]
    intro a ha
    rw [dbFind] at h
    have := List.find?_eq_none.mp h a ha
    simpa using this
  refine ⟨by simp [mkcolStep, h], by simp [mkcolStep, h], by simp [mkcolStep, h],
    ?_, ?_, ?_⟩
  · simp only [mkcolStep, h]
    rw [hx]
  · simp only [mkcolStep, h]
    rw [hx]
  · simp only [mkcolStep, h]
    simp [List.filter_append, hnil]

/-- Concrete instantiation of c8_mkcol_twice on an empty table. -/
theorem c8_mkcol_twice_witness :
    dbFind ([] : List FileRecord) "/d" = none
    ∧ (mkcolStep envA ⟨[], []⟩ "/d").1 = .basic 201 ""
    ∧ (mkcolStep envA (mkcolStep envA ⟨[], []⟩ "/d").2 "/d").1 =
        .basic 405 "Already Exists"
    ∧ ((mkcolStep envA ⟨[], []⟩ "/d").2.db.filter fun r => r.path == "/d").length = 1 :=
  ⟨by decide, (c8_mkcol_twice envA ⟨[], []⟩ "/d" (by decide)).1,
    (c8_mkcol_twice envA ⟨[], []⟩ "/d" (by decide)).2.2.2.1,
    (c8_mkcol_twice envA ⟨[], []⟩ "/d" (by decide)).2.2.2.2.2⟩

/-! ## Claim C9 -/

theorem getShard_write_mem (db : List FileRecord) (shards : List Shard)
    (key : String) (s : Shard) (h : getShard db shards key true = some s) :
    s ∈ shards := by
  rw [getShard] at h
  by_cases hlen : shards.length = 0
  · simp [hlen] at h
  · simp only [beq_iff_eq, hlen, if_false] at h
    exact List.getElem?_mem h

theorem find?_id_self (shards : List Shard) (s : Shard) (hs : s ∈ shards)
    (hnd : (shards.map fun x => x.id).Nodup) :
    shards.find? (fun x => x.id == s.id) = some s := by
  have hex : ∃ x, x ∈ shards ∧ (fun x => x.id == s.id) x = true := ⟨s, hs, by simp⟩
  obtain ⟨y, hy⟩ := Option.isSome_iff_exists.mp (List.find?_isSome.mpr hex)
  have hymem : y ∈ shards := List.mem_of_find?_eq_some hy
  have hyid : y.id = s.id := by
    have := List.find?_some hy
    simpa using this
  have hys : y = s := List.inj_on_of_nodup_map hnd hymem hs (by simpa using hyid)
  rw [hy, hys]

/-- C9: after a PUT of body bytes with a numeric Content-Length header L
resolving to a local shard, the responded status is 201 created, the stored
metadata record carries size L (and the resolved shard id), and a GET of the
same path returns exactly the stored bytes and content type. The Nodup
hypothesis is the configuration invariant that shard ids are unique. -/
theorem c9_put_get_roundtrip (e : Env) (st : SysState) (P : String)
    (body : List Nat) (ct : Option String) (cl : String) (L : Nat) (s : Shard)
    (hres : getShard st.db e.shards P true = some s)
    (hloc : s.type = "local")
    (hnd : (e.shards.map fun x => x.id).Nodup)
    (hcl : parseIntJS cl = some L) :
    (putStep e st P body ct (some cl)).1 = .basic 201 ""
    ∧ dbFind (putStep e st P body ct (some cl)).2.db P =
        some ⟨P, s.id, 0, some L, e.now⟩
    ∧ getStep e (putStep e st P body ct (some cl)).2 P = .obj 200 body ct := by
  have hput : putStep e st P body ct (some cl) =
      (.basic 201 "", ⟨upsert st.db P s.id (some L) e.now,
        storePut st.store s.id P ⟨body, ct⟩⟩) := by
    rw [putStep, hres]
    simp [hloc, hcl]
  have hdb : dbFind (upsert st.db P s.id (some L) e.now) P =
      some ⟨P, s.id, 0, some L, e.now⟩ := by
    rw [dbFind, upsert]
    exact find?_filtered_append (fun r => r.path == P) st.db
      ⟨P, s.id, 0, some L, e.now⟩ (by simp)
  have hshard : e.shards.find? (fun x => x.id == s.id) = some s :=
    find?_id_self _ _ (getShard_write_mem _ _ _ _ hres) hnd
  have hread : getShard (upsert st.db P s.id (some L) e.now) e.shards P false =
      some s := by
    simp [getShard, hdb, hshard]
  have hobj : storeGet (storePut st.store s.id P ⟨body, ct⟩) s.id P =
      some ⟨body, ct⟩ := by
    rw [storeGet, storePut]
    rw [find?_filtered_append (fun kv => kv.1 == (s.id, P)) st.store _ (by simp)]
    rfl
  refine ⟨by rw [hput], ?_, ?_⟩
  · rw [hput]
    exact hdb
  · rw [hput]
    simp [getStep, hread, hloc, hobj]

/-- Concrete instantiation of c9_put_get_roundtrip: a five-byte PUT to the
single local shard A, then a GET returning the same bytes, with the record
size taken from the Content-Length header. -/
theorem c9_put_get_roundtrip_witness :
    getShard [] [shardA] "/f.bin" true = some shardA
    ∧ parseIntJS "5" = some 5
    ∧ (putStep envA ⟨[], []⟩ "/f.bin" [10, 20, 30, 40, 50] (some "application/x")
        (some "5")).1 = .basic 201 ""
    ∧ dbFind (putStep envA ⟨[], []⟩ "/f.bin" [10, 20, 30, 40, 50]
        (some "application/x") (some "5")).2.db "/f.bin" =
        some ⟨"/f.bin", "A", 0, some 5, 1000⟩
    ∧ getStep envA (putStep envA ⟨[], []⟩ "/f.bin" [10, 20, 30, 40, 50]
        (some "application/x") (some "5")).2 "/f.bin" =
        .obj 200 [10, 20, 30, 40, 50] (some "application/x") :=
  ⟨by decide, by decide,
    (c9_put_get_roundtrip envA ⟨[], []⟩ "/f.bin" [10, 20, 30, 40, 50]
      (some "application/x") "5" 5 shardA (by decide) (by decide) (by decide)
      (by decide)).1,
    (c9_put_get_roundtrip envA ⟨[], []⟩ "/f.bin" [10, 20, 30, 40, 50]
      (some "application/x") "5" 5 shardA (by decide) (by decide) (by decide)
      (by decide)).2.1,
    (c9_put_get_roundtrip envA ⟨[], []⟩ "/f.bin" [10, 20, 30, 40, 50]
      (some "application/x") "5" 5 shardA (by decide) (by decide) (by decide)
      (by decide)).2.2⟩

/-! ## Claim C1 -/

/-- C1 (code bug): after MOVE of "/a/b.txt" to "/a/c.txt" rewrites only the
metadata record path, a read-intent resolve of the destination does return
the shard that hosted the source — but GET of the destination looks the
object up under the new key, where nothing was ever stored, and answers
404 Object Not Found in R2 instead of the original bytes, which still sit
under the old key on that same shard. -/
theorem c1_move_get_bug :
    (onRequest envA
        ⟨[⟨"/a/b.txt", "A", 0, some 5, 500⟩],
          [(("A", "/a/b.txt"), ⟨[104, 101, 108, 108, 111], some "text/plain"⟩)]⟩
        ⟨"MOVE", "/a/b.txt", authHeaders, [], some "/a/c.txt"⟩).1 = .basic 201 ""
    ∧ getShard (onRequest envA
        ⟨[⟨"/a/b.txt", "A", 0, some 5, 500⟩],
          [(("A", "/a/b.txt"), ⟨[104, 101, 108, 108, 111], some "text/plain"⟩)]⟩
        ⟨"MOVE", "/a/b.txt", authHeaders, [], some "/a/c.txt"⟩).2.db
        [shardA] "/a/c.txt" false = some shardA
    ∧ storeGet (onRequest envA
        ⟨[⟨"/a/b.txt", "A", 0, some 5, 500⟩],
          [(("A", "/a/b.txt"), ⟨[104, 101, 108, 108, 111], some "text/plain"⟩)]⟩
        ⟨"MOVE", "/a/b.txt", authHeaders, [], some "/a/c.txt"⟩).2.store
        "A" "/a/b.txt" = some ⟨[104, 101, 108, 108, 111], some "text/plain"⟩
    ∧ (onRequest envA
        (onRequest envA
          ⟨[⟨"/a/b.txt", "A", 0, some 5, 500⟩],
            [(("A", "/a/b.txt"), ⟨[104, 101, 108, 108, 111], some "text/plain"⟩)]⟩
          ⟨"MOVE", "/a/b.txt", authHeaders, [], some "/a/c.txt"⟩).2
        ⟨"GET", "/a/c.txt", authHeaders, [], none⟩).1 =
        .basic 404 "Object Not Found in R2" := by decide

/-! ## Claim C2 -/

/-- C2 counterexample: in the current handler an authenticated LOCK on a
plain path under a one-shard configuration falls through the method
dispatch to 405 Method Not Allowed — no success, no lock token. -/
theorem c2_lock_counterexample :
    (onRequest envA ⟨[], []⟩ ⟨"LOCK", "/x", authHeaders, [], none⟩).1 =
      .basic 405 "Method Not Allowed" := by decide

/-- C2 amended: the current handler answers every authenticated LOCK on a
non-asset path with 405 Method Not Allowed; only the historical revision
grants the lock — there, the response is 200 with the token (fresh per
drawn uuid, hence distinct across distinct calls) in both the XML body and
the bracketed Lock-Token header, echoing the Timeout header and defaulting
to Second-3600. -/
theorem c2_lock_stub (e : Env) (st : SysState) (req : Req)
    (hm : req.method = "LOCK")
    (hasset : assetRouted (normalizePath req.rawPath) req.method = false)
    (hadmin : normalizePath req.rawPath ≠ "/api/admin/config")
    (hauth : req.headers "Authorization" = some (basicAuth DEFAULT_USER e.pass))
    (hsh : e.shards.length ≠ 0) :
    (onRequest e st req).1 = .basic 405 "Method Not Allowed"
    ∧ (∀ t u, lockHandler t u =
        ⟨200, lockXmlBody (t.getD "Second-3600") ("opaquelocktoken:" ++ u),
          "<" ++ ("opaquelocktoken:" ++ u) ++ ">"⟩)
    ∧ (∀ t t' u u', u ≠ u' →
        (lockHandler t u).lockTokenHeader ≠ (lockHandler t' u').lockTokenHeader) := by
  refine ⟨?_, fun t u => rfl, ?_⟩
  · rw [hm] at hasset
    simp [onRequest, hasset, hadmin, hauth, hm, hsh]
  · intro t t' u u' hne heq
    simp only [lockHandler] at heq
    apply hne
    apply String.ext
    have hd := congrArg String.data heq
    simp only [String.data_append] at hd
    have h1 := List.append_cancel_right hd
    exact List.append_cancel_left (List.append_cancel_left h1)

/-- Concrete instantiation of c2_lock_stub at a LOCK request on "/x". -/
theorem c2_lock_stub_witness :
    (assetRouted (normalizePath "/x") "LOCK" = false
      ∧ normalizePath "/x" ≠ "/api/admin/config"
      ∧ authHeaders "Authorization" = some (basicAuth DEFAULT_USER envA.pass)
      ∧ envA.shards.length ≠ 0)
    ∧ (onRequest envA ⟨[], []⟩ ⟨"LOCK", "/x", authHeaders, [], none⟩).1 =
        .basic 405 "Method Not Allowed" :=
  ⟨⟨by decide, by decide, by decide, by decide⟩,
    (c2_lock_stub envA ⟨[], []⟩ ⟨"LOCK", "/x", authHeaders, [], none⟩ rfl
      (by decide) (by decide) (by decide) (by decide)).1⟩

/-! ## Claim C3 -/

/-- C3 counterexample: with an empty metadata table, an authenticated
PROPFIND on "/" under a one-shard configuration returns 404 Not Found —
the root is not addressable on an empty table. -/
theorem c3_root_propfind_counterexample :
    (onRequest envA ⟨[], []⟩ ⟨"PROPFIND", "/", authHeaders, [], none⟩).1 =
      .basic 404 "Not Found" := by decide

/-- C3 amended: PROPFIND on "/" answers 404 exactly when the root listing
query matches no record — in particular it answers 404 on an empty
metadata table — and answers 207 multistatus over the matched records
otherwise; no special case makes the bare root addressable. -/
theorem c3_root_propfind (e : Env) (st : SysState) (req : Req)
    (hm : req.method = "PROPFIND")
    (hpath : normalizePath req.rawPath = "/")
    (hauth : req.headers "Authorization" = some (basicAuth DEFAULT_USER e.pass))
    (hsh : e.shards.length ≠ 0) :
    (onRequest e st req).1 = propfindStep st.db "/"
    ∧ (propfindQuery st.db "/" = [] ↔
        (onRequest e st req).1 = .basic 404 "Not Found")
    ∧ (st.db = [] → (onRequest e st req).1 = .basic 404 "Not Found")
    ∧ (propfindQuery st.db "/" ≠ [] →
        (onRequest e st req).1 = .multistatus (propfindQuery st.db "/")) := by
  have hadmin : normalizePath req.rawPath ≠ "/api/admin/config" := by
    rw [hpath]
    decide
  have hmain : (onRequest e st req).1 = propfindStep st.db "/" := by
    simp [onRequest, hadmin, hauth, hm, hsh, hpath,
      (by decide : assetRouted "/" "PROPFIND" = false)]
  refine ⟨hmain, ?_, ?_, ?_⟩
  · rw [hmain, propfindStep]
    constructor
    · intro h
      simp [h]
    · intro h
      by_contra hne
      rw [if_neg (by simpa using hne)] at h
      cases h
  · intro h
    rw [hmain, propfindStep, h]
    rfl
  · intro h
    rw [hmain, propfindStep, if_neg (by simpa using h)]

/-- Concrete instantiation of c3_root_propfind on the empty table. -/
theorem c3_root_propfind_witness :
    (normalizePath "/" = "/"
      ∧ authHeaders "Authorization" = some (basicAuth DEFAULT_USER envA.pass)
      ∧ envA.shards.length ≠ 0
      ∧ propfindQuery ([] : List FileRecord) "/" = [])
    ∧ (onRequest envA ⟨[], []⟩ ⟨"PROPFIND", "/", authHeaders, [], none⟩).1 =
        .basic 404 "Not Found" :=
  ⟨⟨by decide, by decide, by decide, by decide⟩,
    (c3_root_propfind envA ⟨[], []⟩ ⟨"PROPFIND", "/", authHeaders, [], none⟩ rfl
      (by decide) (by decide) (by decide)).2.2.1 (by decide)⟩

/-! ## Claim C10 -/

/-- C10 counterexample: the handler strips exactly one trailing slash, so
for the path "/a//" (length over one, ending in "/") it operates on "/a/"
while the slash-stripped request "/a/" operates on "/a" — against a table
holding a record for "/a", PROPFIND answers 404 for the first and 207 for
the second, so the two requests do not behave identically. -/
theorem c10_trailing_slash_counterexample :
    (("/a//" : String).length > 1 ∧ strEndsWith "/a//" "/" = true)
    ∧ onRequest envA ⟨[⟨"/a", "A", 0, some 5, 7⟩], []⟩
        ⟨"PROPFIND", "/a//", authHeaders, [], none⟩ ≠
      onRequest envA ⟨[⟨"/a", "A", 0, some 5, 7⟩], []⟩
        ⟨"PROPFIND", ("/a//" : String).dropRight 1, authHeaders, [], none⟩ := by
  decide

/-- C10 amended: for a request whose decoded path is longer than one
character and ends in exactly one trailing slash (the stripped path does
not itself end in "/"), and which is not routed to the static-asset
passthrough (the only branch reading the raw path), the handler behaves
identically to the same request with the trailing slash removed. -/
theorem c10_trailing_slash (e : Env) (st : SysState) (req : Req)
    (h1 : req.rawPath.length > 1)
    (h2 : strEndsWith req.rawPath "/" = true)
    (h3 : strEndsWith (req.rawPath.dropRight 1) "/" = false)
    (h4 : assetRouted (req.rawPath.dropRight 1) req.method = false) :
    onRequest e st req =
      onRequest e st ⟨req.method, req.rawPath.dropRight 1, req.headers,
        req.body, req.dest⟩ := by
  have hnorm1 : normalizePath req.rawPath = req.rawPath.dropRight 1 := by
    rw [normalizePath, if_pos]
    simp [h1, h2]
  have hnorm2 : normalizePath (req.rawPath.dropRight 1) = req.rawPath.dropRight 1 := by
    rw [normalizePath]
    simp [h3]
  simp [onRequest, hnorm1, hnorm2, h4]

/-- Concrete instantiation of c10_trailing_slash: PROPFIND "/a/" and
PROPFIND "/a" give the same response and state. -/
theorem c10_trailing_slash_witness :
    (("/a/" : String).length > 1 ∧ strEndsWith "/a/" "/" = true
      ∧ strEndsWith (("/a/" : String).dropRight 1) "/" = false
      ∧ assetRouted (("/a/" : String).dropRight 1) "PROPFIND" = false)
    ∧ onRequest envA ⟨[⟨"/a", "A", 0, some 5, 7⟩], []⟩
        ⟨"PROPFIND", "/a/", authHeaders, [], none⟩ =
      onRequest envA ⟨[⟨"/a", "A", 0, some 5, 7⟩], []⟩
        ⟨"PROPFIND", ("/a/" : String).dropRight 1, authHeaders, [], none⟩ :=
  ⟨⟨by decide, by decide, by decide, by decide⟩,
    c10_trailing_slash envA ⟨[⟨"/a", "A", 0, some 5, 7⟩], []⟩
      ⟨"PROPFIND", "/a/", authHeaders, [], none⟩ (by decide) (by decide)
      (by decide) (by decide)⟩

end R2WD
